import Mathlib

/-!
# Verification of the rex resource-composition and temporal-statistics core

Shallow embedding of `rex/multi_res_resource.py` and
`rex/temporal_stats/temporal_stats.py` (plus the interfaces those modules
consume), together with proofs settling the specification claims about them.

Machine floats are idealised as `ℝ` (for the circular-mean arithmetic) or `ℚ`
(for the interpolation pipeline, where exact evaluation on witnesses matters);
numpy `NaN` / pandas missing values are modelled as `Option` `none`.
-/

namespace Rex

/-! ## Python slices and axis selectors

`parse_keys` (in `rex.utilities.parse_keys`, outside the sources at hand)
normalises an indexing key to a dataset name plus one or two axis selectors,
each an int, a slice or an index list.  Site/time indices are naturals here;
negative indices are not used by any claim. -/

/-- A Python `slice(start, stop, step)` over a natural-number axis. -/
structure PySlice where
  start : Option Nat
  stop : Option Nat
  step : Option Nat
deriving Repr, DecidableEq

/-- Python `slice.indices(len)` for non-negative bounds and a positive step:
default the start to 0, the stop to `len`, the step to 1, and clamp the two
bounds to the axis length. -/
def PySlice.indices (s : PySlice) (len : Nat) : Nat × Nat × Nat :=
  (min (s.start.getD 0) len, min (s.stop.getD len) len, s.step.getD 1)

/-- Python `list(range(start, stop, step))` for a positive step. -/
def rangeStep (start stop step : Nat) : List Nat :=
  (List.range ((stop - start + step - 1) / step)).map (fun k => start + k * step)

/-- One axis selector as produced by the key parser: a single integer, a
slice, or an explicit list of indices (ndarray selectors behave as lists). -/
inductive Sel
  | int (i : Nat)
  | slc (s : PySlice)
  | list (l : List Nat)
deriving Repr, DecidableEq

/-- The unrestricted selector `slice(None)`. -/
def fullSlice : Sel := .slc ⟨none, none, none⟩

/-- The index list an axis selector denotes on an axis of length `len`
(numpy basic/fancy indexing, restricted to in-range indices). -/
def Sel.apply (sel : Sel) (len : Nat) : List Nat :=
  match sel with
  | .int i => [i]
  | .slc s =>
    match s.indices len with
    | (a, b, st) => rangeStep a b st
  | .list l => l

theorem rangeStep_zero_one (n : Nat) : rangeStep 0 n 1 = List.range n := by
  simp [rangeStep]

theorem fullSlice_apply (len : Nat) : fullSlice.apply len = List.range len := by
  simp [fullSlice, Sel.apply, PySlice.indices, rangeStep_zero_one]

/-! ## `TemporalStats._create_index` (temporal_stats.py lines 369-389)

```python
if isinstance(sites_slice, slice) and sites_slice.stop:
    idx = list(range(*sites_slice.indices(sites_slice.stop)))
elif isinstance(sites_slice, (list, np.ndarray)):
    idx = sites_slice
return idx
```

When neither branch assigns `idx`, the final `return idx` raises
`UnboundLocalError`. -/

/-- Result of `_create_index`: either the gid list, or the
`UnboundLocalError` raised by `return idx` when no branch assigned `idx`. -/
inductive IndexRes
  | ok (idx : List Nat)
  | unboundLocalError
deriving Repr, DecidableEq

/-- `TemporalStats._create_index`.  A slice is kept only when its `stop` is
truthy (not `None` and not `0`); then `slice.indices` is called with the
slice's own `stop` as the axis length. -/
def create_index (sites_slice : Sel) : IndexRes :=
  match sites_slice with
  | .slc s =>
    match s.stop with
    | some m =>
      if m ≠ 0 then
        match s.indices m with
        | (a, b, st) => .ok (rangeStep a b st)
      else .unboundLocalError
    | none => .unboundLocalError
  | .list l => .ok l
  | .int _ => .unboundLocalError

/-! ## The attribute model for resource handlers

A handler attribute is classified by the container shape that
`MultiResolutionResource.__getattr__` inspects: `list`, `tuple`, `dict`, or
anything else (methods, ints, arrays, ...).  Attribute lookup on a handler
returns `none` when Python would raise `AttributeError`. -/

/-- A Python attribute value as seen by the merge heuristics of
`__getattr__`: list, tuple, dict, or an unmergeable other value. -/
inductive AttrVal
  | lst (l : List String)
  | tup (l : List String)
  | dct (d : List (String × String))
  | other (tag : String)
deriving Repr, DecidableEq

/-- A resource handler as consumed by the composition layer.

Modelled from the spec: the Single-Resource Reader (an external collaborator,
not among the sources here) exposes `time_index`, a site axis, the dataset
catalog `resource_datasets`, per-cell dataset values (`none` = missing/NaN),
and generic Python attribute lookup (`none` = `AttributeError`). -/
structure Handler where
  time_index : List Nat
  nSites : Nat
  resource_datasets : List String
  data : String → Nat → Nat → Option ℚ
  pyattrs : String → Option AttrVal

/-- `MultiResolutionResource.HR_ATTRS`: attributes always taken from the
high-res handler only. -/
def HR_ATTRS : List String :=
  ["meta", "time_index", "coordinates", "lat_lon", "data_version",
   "global_attrs", "get_meta_arr"]

/-- Outcome of an attribute access routed through
`MultiResolutionResource.__getattr__`. -/
inductive AttrRes
  | val (v : AttrVal)
  | pyNone
  | unboundLocalError
  | attributeError
deriving Repr, DecidableEq

/-- `dict` merge `out = copy.deepcopy(lr_attr); out.update(hr_attr)`:
every lr key keeps its position but takes hr's value when hr has the key;
hr-only keys are appended. -/
def mergeDict (lr hr : List (String × String)) : List (String × String) :=
  lr.map (fun kv => (kv.1, (hr.lookup kv.1).getD kv.2)) ++
    hr.filter (fun kv => (lr.lookup kv.1).isNone)

/-- `MultiResolutionResource.__getattr__` (multi_res_resource.py 218-241).

The opening `if attr in dir(self)` is a no-op for every name that reaches
`__getattr__` (which Python only invokes after normal lookup failed, so the
name is not among the class/instance attributes `dir` lists) and is omitted.

In the fallback branch the source wraps both handler lookups in
`try/except`; the `except` block formats a message that reads `hr_attr` and
`lr_attr`, so when either `getattr` raised (the name missing from a handler)
the handler variable is unbound and the block itself raises
`UnboundLocalError` instead of the intended descriptive `RuntimeError`.
When both lookups succeed but no `isinstance` branch matches, the method
falls off its end and Python returns `None`.  `list(set(hr + lr))` is
modelled order-normalised via `dedup`. -/
def mr_getattr (hr lr : Handler) (attr : String) : AttrRes :=
  if attr ∈ HR_ATTRS then
    match hr.pyattrs attr with
    | some v => .val v
    | none => .attributeError
  else
    match hr.pyattrs attr, lr.pyattrs attr with
    | none, _ => .unboundLocalError
    | some _, none => .unboundLocalError
    | some hv, some lv =>
      match hv, lv with
      | .lst a, .lst b => .val (.lst ((a ++ b).dedup))
      | .tup a, .tup b => .val (.tup (a ++ b))
      | .dct a, .dct b => .val (.dct (mergeDict b a))
      | _, _ => .pyNone

/-! ## The pandas reindex / interpolate / ffill / bfill pipeline

`MultiResolutionResource.time_interp` (multi_res_resource.py 133-152) builds
`pd.DataFrame(arr, index=lr_time_index)`, reindexes onto the hr time index
and runs `.interpolate('linear').ffill().bfill()`.  The pipeline acts
column-wise; a column is a `List (Option ℚ)` (`none` = NaN). -/

/-- Position of the first occurrence of `t` in a list (pandas index
alignment; `reindex` demands a unique index, making the first occurrence the
occurrence). -/
def findPos (t : Nat) : List Nat → Option Nat
  | [] => none
  | x :: xs => if x = t then some 0 else (findPos t xs).map (· + 1)

/-- `DataFrame.reindex`: each target label takes the value stored at that
label in the source index, `NaN` when the label is absent. -/
def reindexCol (lrIdx : List Nat) (col : List (Option ℚ)) (hrIdx : List Nat) :
    List (Option ℚ) :=
  hrIdx.map (fun t =>
    match findPos t lrIdx with
    | some p => col.getD p none
    | none => none)

/-- Latest valid (non-NaN) entry strictly before position `k`. -/
def prevValid (xs : List (Option ℚ)) : Nat → Option (Nat × ℚ)
  | 0 => none
  | k + 1 =>
    match xs[k]? with
    | some (some v) => some (k, v)
    | _ => prevValid xs k

/-- Scan for the first valid entry at position `j` or later, with fuel. -/
def nextValidFrom (xs : List (Option ℚ)) : Nat → Nat → Option (Nat × ℚ)
  | 0, _ => none
  | fuel + 1, j =>
    match xs[j]? with
    | some (some v) => some (j, v)
    | some none => nextValidFrom xs fuel (j + 1)
    | none => none

/-- Earliest valid (non-NaN) entry strictly after position `k`. -/
def nextValid (xs : List (Option ℚ)) (k : Nat) : Option (Nat × ℚ) :=
  nextValidFrom xs xs.length (k + 1)

/-- `Series.interpolate('linear')` with pandas defaults
(`limit_direction='forward'`): values are treated as equally spaced, a NaN
between two valid neighbours is filled by the linear formula on positions, a
NaN after the last valid entry is filled with that entry, and a leading NaN
(no valid entry before it) is left as NaN. -/
def interpolateLinear (xs : List (Option ℚ)) : List (Option ℚ) :=
  (List.range xs.length).map (fun k =>
    match xs[k]? with
    | some (some v) => some v
    | _ =>
      match prevValid xs k, nextValid xs k with
      | some (i, vi), some (j, vj) =>
        some (vi + (vj - vi) * (((k : ℚ) - i) / ((j : ℚ) - i)))
      | some (_, vi), none => some vi
      | _, _ => none)

/-- `Series.ffill`: a NaN takes the latest valid value before it. -/
def ffill (xs : List (Option ℚ)) : List (Option ℚ) :=
  (List.range xs.length).map (fun k =>
    match xs[k]? with
    | some (some v) => some v
    | _ => (prevValid xs k).map (·.2))

/-- `Series.bfill`: a NaN takes the earliest valid value after it. -/
def bfill (xs : List (Option ℚ)) : List (Option ℚ) :=
  (List.range xs.length).map (fun k =>
    match xs[k]? with
    | some (some v) => some v
    | _ => (nextValid xs k).map (·.2))

/-- One column of `time_interp`: reindex from the lr time index onto the hr
time index, then `interpolate('linear').ffill().bfill()`. -/
def time_interp_col (lrIdx hrIdx : List Nat) (col : List (Option ℚ)) :
    List (Option ℚ) :=
  bfill (ffill (interpolateLinear (reindexCol lrIdx col hrIdx)))

/-- Column `j` of a row-major array. -/
def getCol (arr : List (List (Option ℚ))) (j : Nat) : List (Option ℚ) :=
  arr.map (fun row => row.getD j none)

/-- `MultiResolutionResource.time_interp`: the row-major result of running
the reindex/interpolate/ffill/bfill pipeline on every column of `arr`, whose
rows correspond to the lr time index (the `pd.DataFrame(arr, index=...)`
construction requires the row count to equal the lr index length). -/
def time_interp (lrIdx hrIdx : List Nat) (arr : List (List (Option ℚ))) :
    List (List (Option ℚ)) :=
  (List.range hrIdx.length).map (fun k =>
    (List.range (arr.headD []).length).map (fun j =>
      (time_interp_col lrIdx hrIdx (getCol arr j)).getD k none))

/-! ## `MultiResolutionResource` reads -/

/-- The multi-resolution composite: the two handlers plus the
nearest-neighbor site map (`nn_map[g]` = lr site nearest to hr site `g`). -/
structure MRes where
  hr : Handler
  lr : Handler
  nn_map : List Nat

/-- Python `s.startswith(p)` (over the character list, which — unlike the
byte-position-based core string functions — evaluates inside the kernel). -/
def strStartsWith (s p : String) : Bool := p.data.isPrefixOf s.data

/-- Substring occurrence over character lists. -/
def containsSub (hay needle : List Char) : Bool :=
  match hay with
  | [] => needle.isEmpty
  | _ :: tl => needle.isPrefixOf hay || containsSub tl needle

/-- The characters after the last slash. -/
def afterLastSlash (l : List Char) : List Char :=
  match l with
  | [] => []
  | c :: tl =>
    if '/' ∈ tl then afterLastSlash tl
    else if c = '/' then tl
    else c :: tl

/-- Python `s.lower()`. -/
def strToLower (s : String) : String := ⟨s.data.map Char.toLower⟩

/-- `os.path.split(ds)[1]`: the part after the last slash. -/
def ds_name (ds : String) : String := ⟨afterLastSlash ds.data⟩

/-- Python `'SAM' in s`. -/
def containsSAM (s : String) : Bool := containsSub s.data "SAM".data

/-- Modelled from the spec: the Single-Resource Reader's
`read(name, time_selector, site_selector) -> array` (external collaborator)
selects rows by the time selector and columns by the site selector. -/
def Handler.read (h : Handler) (ds : String) (tSel sSel : Sel) :
    List (List (Option ℚ)) :=
  (tSel.apply h.time_index.length).map (fun t =>
    (sSel.apply h.nSites).map (fun s => h.data ds t s))

/-- Modelled from the spec: a handler's `_get_ds(ds, ds_slice)` with a
single selector leaves the site axis unrestricted. -/
def Handler.get_ds (h : Handler) (ds : String) (dsSl : List Sel) :
    List (List (Option ℚ)) :=
  match dsSl with
  | [t] => h.read ds t fullSlice
  | [t, s] => h.read ds t s
  | _ => []

/-- Outcome of `MultiResolutionResource.map_ds_slice`. -/
inductive MapSlice
  | ok (t s : Sel)
  | resourceRuntimeError (msg : String)
  | unpackError
deriving Repr, DecidableEq

/-- `MultiResolutionResource.map_ds_slice` (multi_res_resource.py 100-131):
pad a 1-entry slice tuple with `slice(None)`, reject more than 2 entries,
then push the site selector through `nn_map` (indexing the nn_map array by
the selector, which yields the corresponding lr site indices).  A 0-entry
tuple would fail Python's 2-element unpacking (`unpackError`; unreachable
through the key parser, which always yields 1 or 2 selectors). -/
def MRes.map_ds_slice (m : MRes) (dsSl : List Sel) : MapSlice :=
  let dsSl := if dsSl.length == 1 then dsSl ++ [fullSlice] else dsSl
  if dsSl.length > 2 then .resourceRuntimeError "Cannot handle ds_slice > 2D"
  else
    match dsSl with
    | [t, s] =>
      .ok t (Sel.list ((s.apply m.nn_map.length).map (fun i => m.nn_map.getD i 0)))
    | _ => .unpackError

/-- Outcome of `MultiResolutionResource.__getitem__`.  The pseudo-dataset
branches delegate to hr accessors that are external to the sources here, so
they are represented by the request they forward (`timeIndexOf`, `metaOf`,
`coordsOf`). -/
inductive GetItem
  | timeIndexOf (dsSl : List Sel)
  | metaOf (dsSl : List Sel)
  | coordsOf (dsSl : List Sel)
  | data (arr : List (List (Option ℚ)))
  | interp (arr : List (List (Option ℚ)))
  | resourceRuntimeError (msg : String)
  | typeError (msg : String)
  | otherExc (msg : String)
  | unboundLocalError
deriving Repr, DecidableEq

/-- `MultiResolutionResource.__getitem__` (multi_res_resource.py 171-200).

The `'SAM' in ds_name` branch calls `self.get_SAM_df(site)`:
`get_SAM_df` is not defined on the composite class, so the attribute goes
through `__getattr__`; handler methods are neither lists, tuples nor dicts,
so the merge falls through, the attribute resolves to `None`, and the call
raises `TypeError` (modelled through `mr_getattr`).

When the dataset name matches no branch, the trailing `return out` reads a
local that no branch assigned and raises `UnboundLocalError`. -/
def MRes.getitem (m : MRes) (ds : String) (dsSl : List Sel) : GetItem :=
  let name := ds_name ds
  if strStartsWith name "time_index" then .timeIndexOf dsSl
  else if strStartsWith name "meta" then .metaOf dsSl
  else if strStartsWith name "coordinates" then .coordsOf dsSl
  else if containsSAM name then
    match dsSl.headD fullSlice with
    | .int _ =>
      match mr_getattr m.hr m.lr "get_SAM_df" with
      | .pyNone => .typeError "NoneType object is not callable"
      | .val _ => .typeError "object is not callable"
      | .unboundLocalError => .unboundLocalError
      | .attributeError => .otherExc "AttributeError"
    | _ => .resourceRuntimeError "Can only extract SAM DataFrame for a single site"
  else if name ∈ m.hr.resource_datasets then
    .data (m.hr.get_ds ds dsSl)
  else if name ∈ m.lr.resource_datasets then
    match m.map_ds_slice dsSl with
    | .ok t s => .interp (time_interp m.lr.time_index m.hr.time_index (m.lr.read ds t s))
    | .resourceRuntimeError msg => .resourceRuntimeError msg
    | .unpackError => .otherExc "ValueError: not enough values to unpack"
  else .unboundLocalError

/-! ## Iteration over the composite -/

/-- The composite's `datasets` attribute, resolved through `__getattr__`
(each rex handler exposes `datasets` as a list, so the union branch
applies). -/
def MRes.datasets (m : MRes) : List String :=
  match mr_getattr m.hr m.lr "datasets" with
  | .val (.lst l) => l
  | _ => []

/-- The iterator cursor: Python attribute `_i`, which
`MultiResolutionResource.__init__` never assigns (`none` = unset on a
freshly constructed composite). -/
structure IterState where
  i : Option Nat
deriving Repr, DecidableEq

/-- Outcome of one `__next__` call. -/
inductive NextRes
  | yield (ds : String) (st : IterState)
  | stopIteration (st : IterState)
  | typeError (msg : String)
  | unboundLocalError
  | otherExc (msg : String)
deriving Repr, DecidableEq

/-- `MultiResolutionResource.__next__` (multi_res_resource.py 205-213).

With `_i` unset, `self._i` falls back to `__getattr__`: the handlers' own
`_i` cursors are ints, so every merge branch fails and the access yields
`None`; `None >= len(self.datasets)` then raises `TypeError` (an attribute
value of list/tuple/dict shape would equally fail the `>=` comparison
against an int). -/
def mr_next (m : MRes) (st : IterState) : NextRes :=
  match st.i with
  | none =>
    match mr_getattr m.hr m.lr "_i" with
    | .pyNone => .typeError "not supported between instances of NoneType and int"
    | .val _ => .typeError "not supported between instances of the value and int"
    | .unboundLocalError => .unboundLocalError
    | .attributeError => .otherExc "AttributeError"
  | some i =>
    if i ≥ m.datasets.length then .stopIteration ⟨some 0⟩
    else .yield (m.datasets.getD i "") ⟨some (i + 1)⟩

/-! ## Temporal statistics: frames, grouping and `_compute_stats`

`TemporalStats._extract_stats` builds `pd.DataFrame(f[dataset, :, sites],
index=time_index)` and hands it to `_compute_stats`.  Only the index fields
the grouping reads (month, hour) are modelled on timestamps. -/

/-- A timestamp as seen by `res_data.index.month` / `.index.hour`. -/
structure Timestamp where
  month : Nat
  hour : Nat
deriving Repr, DecidableEq

/-- A pandas DataFrame of resource data: rows indexed by timestamps,
columns by site gids, values row-major. -/
structure DFrame where
  index : List Timestamp
  cols : List Nat
  vals : List (List ℝ)

/-- The groupby key of one row: month and/or hour, in the order
`_compute_stats` appends them to the `groupby` list (month first). -/
def rowKey (month diurnal : Bool) (t : Timestamp) : List Nat :=
  (if month then [t.month] else []) ++ (if diurnal then [t.hour] else [])

/-- Rows of a frame satisfying a predicate on the timestamp. -/
def filterRows (df : DFrame) (p : Timestamp → Bool) : DFrame :=
  let rows := (df.index.zip df.vals).filter (fun r => p r.1)
  ⟨rows.map (·.1), df.cols, rows.map (·.2)⟩

/-- `res_data.groupby(groupby)`: the distinct keys, each with its
sub-frame.  (pandas lists groups in sorted key order; the statements proved
below do not depend on the order, so first-occurrence order is used.) -/
def groupFrame (df : DFrame) (month diurnal : Bool) :
    List (List Nat × DFrame) :=
  ((df.index.map (rowKey month diurnal)).dedup).map
    (fun k => (k, filterRows df (fun t => rowKey month diurnal t == k)))

/-- `_format_grp_names`'s per-month abbreviation map.  (In Python a key
outside 1..12 would raise `KeyError`; group keys produced by
`res_data.index.month` are always 1..12, and the claims settled here never
reach this map with any other key.) -/
def month_abbr (m : Nat) : String :=
  match m with
  | 1 => "Jan" | 2 => "Feb" | 3 => "Mar" | 4 => "Apr" | 5 => "May"
  | 6 => "Jun" | 7 => "Jul" | 8 => "Aug" | 9 => "Sep" | 10 => "Oct"
  | 11 => "Nov" | 12 => "Dec" | _ => ""

/-- `'{:02d}:00UTC'.format(h)`. -/
def fmt_hour (h : Nat) : String :=
  (if h < 10 then "0" ++ toString h else toString h) ++ ":00UTC"

/-- One axis of `_format_grp_names`: the whole axis is formatted by its
maximum (months when `max <= 12`, hours when `max <= 23`, else years). -/
def fmt_axis (ks : List Nat) : List String :=
  let m := ks.foldr max 0
  if m ≤ 12 then ks.map month_abbr
  else if m ≤ 23 then ks.map fmt_hour
  else ks.map toString

/-- `TemporalStats._format_grp_names` over the group keys (each key is the
list of its axis components): transpose, format each axis by its maximum,
transpose back. -/
def format_grp_names (ks : List (List Nat)) : List String :=
  ((ks.transpose.map fmt_axis).transpose).map (String.intercalate "-")

/-- `TemporalStats._create_names`: per statistic, one column name per group,
`'-'.join(group)` and the statistic joined by an underscore. -/
def create_names (groups : List (List Nat)) (stats : List String) :
    List (String × List String) :=
  let gnames := format_grp_names groups
  stats.map (fun s => (s, gnames.map (fun n => n ++ "_" ++ s)))

/-- The kwargs of one statistic entry, holding the field `_compute_stats`
and `_compute_weighted_stats` inspect: after `_extract_stats` ran, the
`weights` kwarg holds a pandas *DataFrame* (built by `_extract_weights`).
The remaining kwargs are forwarded verbatim to the statistic function and
are treated as part of the function below. -/
structure StatKwargs where
  weights : Option DFrame

instance : Inhabited StatKwargs := ⟨⟨none⟩⟩

/-- One statistics entry `{'func': ..., 'kwargs': {...}}`.  The function
receives the (sub-)frame and an optional weights frame. -/
structure StatSpec where
  func : DFrame → Option DFrame → List ℝ
  kwargs : Option StatKwargs

/-- A Python exception from the statistics path. -/
inductive PyErr
  | attributeError (msg : String)
  | typeError (msg : String)
  | indexError (msg : String)
deriving Repr, DecidableEq

/-- A statistics result table: one entry per column, `(name, per-site
values)`. -/
abbrev StatTable := List (String × List ℝ)

/-- `TemporalStats._compute_weighted_stats` (temporal_stats.py 270-303).

```python
weights = kwargs.pop('weights', None)
if column_names:
    s_data = []
    for grp_name, res_grp in res_data:
        if weights is not None:
            grp_w = weights.get_group(grp_name)
        else:
            grp_w = None
        s_data[grp_name] = func(res_grp, weights=grp_w, **kwargs)
    s_data = pd.DataFrame(s_data, columns=column_names)
else:
    s_data = func(res_data, weights=weights, **kwargs)
    s_data = pd.DataFrame({'weighted_mean': s_data})
```

With `column_names` set (the grouped case) and at least one group, the first
loop iteration raises: when a `weights` kwarg is present it is the
*DataFrame* stored by `_extract_stats` (never a GroupBy — `_compute_stats`
is called without its `weights` parameter), and a DataFrame has no
`get_group`, so `AttributeError`; without weights, `s_data[grp_name] = ...`
assigns into the empty *list* `s_data` by group key, raising `IndexError`
for a scalar key or `TypeError` for a tuple key. -/
def compute_weighted_stats (func : DFrame → Option DFrame → List ℝ)
    (res_data : DFrame ⊕ List (List Nat × DFrame))
    (column_names : Option (List (String × List String)))
    (kwargs : StatKwargs) : Except PyErr StatTable :=
  let weights := kwargs.weights
  match column_names with
  | some _ =>
    match res_data with
    | .inr groups =>
      match groups with
      | [] => .ok []
      | (gk, _) :: _ =>
        if weights.isSome then
          .error (.attributeError "DataFrame object has no attribute get_group")
        else
          .error (if gk.length ≤ 1 then
                    .indexError "list assignment index out of range"
                  else
                    .typeError "list indices must be integers or slices, not tuple")
    | .inl _ =>
      -- unreachable from `_compute_stats`: `column_names` is only set when
      -- the data was grouped; iterating a plain DataFrame would fail the
      -- 2-element unpacking in the loop header
      .error (.typeError "cannot unpack non-sequence")
  | none =>
    match res_data with
    | .inl df => .ok [("weighted_mean", func df weights)]
    | .inr _ =>
      -- unreachable from `_compute_stats`: grouped data always comes with
      -- `column_names`
      .error (.typeError "ungrouped weighted call on grouped data")

/-- The statistics loop of `_compute_stats` (temporal_stats.py 345-365):
names starting with the weighted prefix go through
`_compute_weighted_stats`; all others through `res_data.aggregate(func)`,
whose grouped result is transposed and labelled with the per-group column
names, and whose ungrouped result becomes a single column named after the
statistic.  The per-statistic tables are concatenated along columns. -/
def stats_loop (res_data : DFrame ⊕ List (List Nat × DFrame))
    (column_names : Option (List (String × List String))) :
    List (String × StatSpec) → Except PyErr StatTable
  | [] => .ok []
  | (name, stat) :: rest => do
    let kwargs := stat.kwargs.getD default
    let s_data ←
      if strStartsWith (strToLower name) "weight" then
        compute_weighted_stats stat.func res_data column_names kwargs
      else
        match res_data, column_names with
        | .inr groups, some cmap =>
          .ok (((cmap.lookup name).getD []).zip
                 (groups.map (fun g => stat.func g.2 none)))
        | .inl df, _ => .ok [(name, stat.func df none)]
        | .inr groups, none =>
          -- unreachable from `_compute_stats`: grouping always sets
          -- `column_names`
          .ok (groups.map (fun g => (name, stat.func g.2 none)))
    let restOut ← stats_loop res_data column_names rest
    .ok (s_data ++ restOut)

/-- `TemporalStats._compute_stats` (temporal_stats.py 305-367).

```python
if month:    groupby.append(res_data.index.month)
if diurnal:  groupby.append(res_data.index.hour)
if groupby:
    res_data = res_data.groupby(groupby)
    if weights is not None:
        weights = weights.groupyby(groupby)
    column_names = cls._create_names(list(res_data.groups), list(statistics))
```

`groupyby` is a misspelling of `groupby`; a pandas DataFrame has no such
attribute, so a non-`None` `weights` argument combined with any grouping
raises `AttributeError` on the spot.  (`_extract_stats` always calls this
method without the `weights` argument, leaving the weights DataFrames inside
each statistic's kwargs.) -/
def compute_stats (res_data : DFrame) (statistics : List (String × StatSpec))
    (diurnal : Bool := false) (month : Bool := false)
    (weights : Option DFrame := none) : Except PyErr StatTable :=
  if month || diurnal then
    let grouped := groupFrame res_data month diurnal
    if weights.isSome then
      .error (.attributeError "DataFrame object has no attribute groupyby")
    else
      let column_names := create_names (grouped.map (·.1)) (statistics.map (·.1))
      stats_loop (.inr grouped) (some column_names) statistics
  else
    stats_loop (.inl res_data) none statistics

/-! ## `weighted_circular_mean` (temporal_stats.py 20-79)

numpy arrays over `ℝ` as shape plus a total multi-index valuation (entries
outside the shape are irrelevant: every operation acts pointwise or sums
over in-shape indices only). -/

/-- A numpy ndarray over `ℝ`. -/
@[ext]
structure NDArray where
  shape : List Nat
  item : List Nat → ℝ

/-- Pointwise unary ufunc application. -/
noncomputable def NDArray.map (f : ℝ → ℝ) (a : NDArray) : NDArray :=
  ⟨a.shape, fun ix => f (a.item ix)⟩

/-- Elementwise product of same-shaped arrays. -/
noncomputable def arrMul (a w : NDArray) : NDArray :=
  ⟨a.shape, fun ix => a.item ix * w.item ix⟩

/-- All multi-indices inside a shape box. -/
def indicesOf : List Nat → List (List Nat)
  | [] => [[]]
  | n :: rest => (List.range n).flatMap (fun i => (indicesOf rest).map (i :: ·))

/-- `np.sum` over all elements. -/
noncomputable def arrSum (a : NDArray) : ℝ :=
  ((indicesOf a.shape).map a.item).sum

/-- `np.nanmean(a, axis=axis)` on NaN-free data: the mean along the given
axis, which disappears from the shape. -/
noncomputable def nanmean_axis (a : NDArray) (axis : Nat) : NDArray :=
  let n := a.shape.getD axis 0
  ⟨a.shape.eraseIdx axis,
   fun ix => (∑ i ∈ Finset.range n, a.item (ix.insertIdx axis i)) / n⟩

/-- `np.arctan2 y x` on reals, piecewise from `arctan` (range `(-π, π]`). -/
noncomputable def np_arctan2 (y x : ℝ) : ℝ :=
  if 0 < x then Real.arctan (y / x)
  else if x < 0 then
    (if 0 ≤ y then Real.arctan (y / x) + Real.pi
     else Real.arctan (y / x) - Real.pi)
  else
    (if 0 < y then Real.pi / 2 else if y < 0 then -(Real.pi / 2) else 0)

/-- Pointwise `np.arctan2`. -/
noncomputable def arrArctan2 (a b : NDArray) : NDArray :=
  ⟨a.shape, fun ix => np_arctan2 (a.item ix) (b.item ix)⟩

/-- The tail of `weighted_circular_mean` for data in degrees:
`mean = np.degrees(mean); mean[mean < 0] += 360` fused pointwise. -/
noncomputable def np_normalize_deg (m : NDArray) : NDArray :=
  ⟨m.shape, fun ix =>
    let d := m.item ix * (180 / Real.pi)
    if d < 0 then d + 360 else d⟩

/-- The shared reduction core of `weighted_circular_mean` once the weights
check passed: convert to radians when the data is in degrees, take the
axis-mean of the sine and cosine components (multiplied through `applyW`,
which is the elementwise product with the weights array, or the identity for
the scalar weight `1` used when no weights were given), recombine with
`np.arctan2`, and convert back to degrees with negatives shifted by 360. -/
noncomputable def circ_mean_arr (data : NDArray) (applyW : NDArray → NDArray)
    (degrees : Bool) (axis : Nat) : NDArray :=
  let d := if degrees then data.map (fun x => x * (Real.pi / 180)) else data
  let s := nanmean_axis (applyW (d.map Real.sin)) axis
  let c := nanmean_axis (applyW (d.map Real.cos)) axis
  let mean := arrArctan2 s c
  if degrees then np_normalize_deg mean else mean

/-- Result of `weighted_circular_mean`. -/
inductive WCMRes
  | ok (a : NDArray)
  | runtimeError (msg : String)

/-- `weighted_circular_mean` (temporal_stats.py 20-79).  When weights are
given with a shape different from the data, the function first (per its
flags) exponentiates and normalizes the mismatched weights — dead
transformations — and then raises the shape-mismatch `RuntimeError` naming
both shapes. -/
noncomputable def weighted_circular_mean (data : NDArray)
    (weights : Option NDArray) (degrees : Bool := true) (axis : Nat := 0)
    (norm_weights : Bool := true) (exponential_weights : Bool := true) :
    WCMRes :=
  match weights with
  | none => .ok (circ_mean_arr data (fun a => a) degrees axis)
  | some w =>
    if data.shape ≠ w.shape then
      let w := if exponential_weights then w.map Real.exp else w
      let w := if norm_weights then ⟨w.shape, fun ix => w.item ix / arrSum w⟩ else w
      .runtimeError ("The shape of weights " ++ toString w.shape ++
        " does not match the shape of the data " ++ toString data.shape ++
        " to which it is to be applied!")
    else
      .ok (circ_mean_arr data (fun a => arrMul a w) degrees axis)

/-! ## Concrete example handlers used by witnesses and counterexamples -/

/-- A high-res example handler. -/
def hrC : Handler :=
  ⟨[0, 1, 2], 2, ["windspeed"], fun _ t s => some ((t : ℚ) + s * 10),
   fun a =>
     if a = "meta" then some (.other "hr_meta_table")
     else if a = "datasets" then some (.lst ["windspeed", "lrtemp"])
     else if a = "_i" then some (.other "int 0")
     else if a = "dsets" then some (.lst ["a", "b"])
     else if a = "shape_t" then some (.tup ["x"])
     else if a = "attr_d" then some (.dct [("k1", "hv1")])
     else if a = "mixed_attr" then some (.lst ["a"])
     else if a = "get_SAM_df" then some (.other "bound method")
     else none⟩

/-- A low-res example handler. -/
def lrC : Handler :=
  ⟨[0, 2], 2, ["lrtemp"], fun _ t s => some ((t : ℚ) * 100 + s),
   fun a =>
     if a = "meta" then some (.other "lr_meta_table")
     else if a = "datasets" then some (.lst ["windspeed", "lrtemp"])
     else if a = "_i" then some (.other "int 0")
     else if a = "dsets" then some (.lst ["b", "c"])
     else if a = "shape_t" then some (.tup ["y"])
     else if a = "attr_d" then some (.dct [("k1", "lv1"), ("k2", "lv2")])
     else if a = "mixed_attr" then some (.tup ["a"])
     else if a = "get_SAM_df" then some (.other "bound method")
     else none⟩

/-- Example composite: hr at 3 time steps, lr at 2, identity-ish nn map. -/
def mC : MRes := ⟨hrC, lrC, [0, 1]⟩

/-! ## C10: totality of `_create_index` -/

/-- C10: the gid index `_create_index` attaches is total exactly for
list/array selectors and for slices with a truthy stop: a list selector is
returned verbatim; a slice with stop `m` (not `None`, not `0`) yields
`list(range(*slice.indices(m)))`; a slice whose stop is `None` (or `0`)
assigns `idx` in no branch and the trailing `return idx` raises
`UnboundLocalError`. -/
theorem create_index_totality :
    (∀ l : List Nat, create_index (.list l) = .ok l)
    ∧ (∀ (s : PySlice) (m : Nat), s.stop = some m → m ≠ 0 →
        create_index (.slc s) =
          .ok (match s.indices m with | (a, b, st) => rangeStep a b st))
    ∧ (∀ s : PySlice, (s.stop = none ∨ s.stop = some 0) →
        create_index (.slc s) = .unboundLocalError) := by
  refine ⟨fun l => rfl, fun s m hm hm0 => ?_, fun s hs => ?_⟩
  · simp [create_index, hm, hm0]
  · rcases hs with hs | hs <;> simp [create_index, hs]

/-- Witness for C10 at concrete selectors: the literal list, the slice
`slice(2, 7)` (stop 7), and the failing full slice `slice(None)`. -/
theorem create_index_totality_witness :
    create_index (.list [3, 5]) = .ok [3, 5]
    ∧ (⟨some 2, some 7, none⟩ : PySlice).stop = some 7 ∧ (7 : Nat) ≠ 0
    ∧ create_index (.slc ⟨some 2, some 7, none⟩) = .ok [2, 3, 4, 5, 6]
    ∧ create_index (.slc ⟨none, none, none⟩) = .unboundLocalError := by
  refine ⟨create_index_totality.1 [3, 5], rfl, by decide, ?_, ?_⟩
  · have h := create_index_totality.2.1 ⟨some 2, some 7, none⟩ 7 rfl (by decide)
    rw [h]; rfl
  · exact create_index_totality.2.2 ⟨none, none, none⟩ (Or.inl rfl)

/-! ## C9: missing datasets fall through `__getitem__` -/

/-- C9: for a dataset name that is no time_index/meta/coordinates/SAM
pseudo-dataset and is in neither handler's `resource_datasets`, no branch of
`__getitem__` assigns `out`, so the read returns no data and fails with
`UnboundLocalError` rather than a descriptive missing-dataset error. -/
theorem getitem_missing_dataset_unbound
    (m : MRes) (ds : String) (dsSl : List Sel)
    (h1 : strStartsWith (ds_name ds) "time_index" = false)
    (h2 : strStartsWith (ds_name ds) "meta" = false)
    (h3 : strStartsWith (ds_name ds) "coordinates" = false)
    (h4 : containsSAM (ds_name ds) = false)
    (h5 : ds_name ds ∉ m.hr.resource_datasets)
    (h6 : ds_name ds ∉ m.lr.resource_datasets) :
    m.getitem ds dsSl = .unboundLocalError := by
  simp [MRes.getitem, h1, h2, h3, h4, h5, h6]

/-- Witness for C9: a dataset name absent from both catalogs of the example
composite. -/
theorem getitem_missing_dataset_unbound_witness :
    ds_name "pressure_0m" ∉ mC.hr.resource_datasets
    ∧ ds_name "pressure_0m" ∉ mC.lr.resource_datasets
    ∧ mC.getitem "pressure_0m" [fullSlice, Sel.int 0] = .unboundLocalError :=
  ⟨by decide, by decide,
   getitem_missing_dataset_unbound mC "pressure_0m" _ rfl rfl rfl rfl (by decide) (by decide)⟩

/-! ## C6: SAM pseudo-dataset reads -/

/-- C6 counterexample: the claim quantifies over every dataset name
containing `'SAM'`, but `__getitem__` checks the time_index/meta/coordinates
prefixes first, so the name `meta_SAM` with a slice (non-integer) site
selector is served as a plain meta read — no `ResourceRuntimeError` is
raised. -/
theorem sam_claim_counterexample :
    containsSAM (ds_name "meta_SAM") = true
    ∧ (∀ i : Nat, ([fullSlice].headD fullSlice) ≠ Sel.int i)
    ∧ mC.getitem "meta_SAM" [fullSlice] = .metaOf [fullSlice]
    ∧ ∀ msg, mC.getitem "meta_SAM" [fullSlice] ≠ .resourceRuntimeError msg := by
  refine ⟨rfl, fun i => by simp [fullSlice], rfl, ?_⟩
  intro msg h
  rw [show mC.getitem "meta_SAM" [fullSlice] = .metaOf [fullSlice] from rfl] at h
  exact GetItem.noConfusion h

/-- C6 (amended): for a dataset name that contains `'SAM'` and does not
start with the time_index/meta/coordinates pseudo-dataset prefixes, a
non-integer site selector (slice, list) makes `__getitem__` raise the fatal
`ResourceRuntimeError`, so such a read can only succeed for a single integer
site index. -/
theorem sam_non_integer_selector_raises
    (m : MRes) (ds : String) (dsSl : List Sel)
    (h1 : strStartsWith (ds_name ds) "time_index" = false)
    (h2 : strStartsWith (ds_name ds) "meta" = false)
    (h3 : strStartsWith (ds_name ds) "coordinates" = false)
    (h4 : containsSAM (ds_name ds) = true)
    (h5 : ∀ i : Nat, dsSl.headD fullSlice ≠ Sel.int i) :
    m.getitem ds dsSl =
      .resourceRuntimeError "Can only extract SAM DataFrame for a single site" := by
  have h5h : ∀ i : Nat, dsSl.head?.getD fullSlice ≠ Sel.int i := by
    cases dsSl <;> simpa using h5
  simp only [MRes.getitem, h1, h2, h3, h4, Bool.false_eq_true, if_false]
  cases hx : dsSl.head?.getD fullSlice with
  | int i => exact absurd hx (h5h i)
  | slc s => simp [hx]
  | list l => simp [hx]

/-- Witness for C6: a `SAM` dataset read with a slice selector on the
example composite. -/
theorem sam_non_integer_selector_raises_witness :
    containsSAM (ds_name "SAM_profile") = true
    ∧ mC.getitem "SAM_profile" [fullSlice] =
        .resourceRuntimeError "Can only extract SAM DataFrame for a single site" :=
  ⟨rfl, sam_non_integer_selector_raises mC "SAM_profile" [fullSlice] rfl rfl rfl rfl
    (fun i => by simp [fullSlice])⟩

/-! ## C4: `weighted_circular_mean` shape mismatch -/

/-- C4: weights whose shape differs from the data make
`weighted_circular_mean` raise the `RuntimeError` naming both shapes, for
every flag combination; the conditional exponentiation/normalization of the
mismatched weights happens first but does not change their shape, and no
value is returned. -/
theorem weighted_circular_mean_shape_mismatch (data w : NDArray)
    (degrees : Bool) (axis : Nat) (nw ew : Bool)
    (h : data.shape ≠ w.shape) :
    weighted_circular_mean data (some w) degrees axis nw ew =
      .runtimeError ("The shape of weights " ++ toString w.shape ++
        " does not match the shape of the data " ++ toString data.shape ++
        " to which it is to be applied!") := by
  cases ew <;> cases nw <;> simp [weighted_circular_mean, NDArray.map, h]

/-- Witness for C4: a 2-element data array against 3-element weights. -/
theorem weighted_circular_mean_shape_mismatch_witness :
    ([2] : List Nat) ≠ [3]
    ∧ weighted_circular_mean ⟨[2], fun _ => 0⟩ (some ⟨[3], fun _ => 0⟩) true 0 true true =
      .runtimeError ("The shape of weights " ++ toString ([3] : List Nat) ++
        " does not match the shape of the data " ++ toString ([2] : List Nat) ++
        " to which it is to be applied!") :=
  ⟨by decide,
   weighted_circular_mean_shape_mismatch ⟨[2], fun _ => 0⟩ ⟨[3], fun _ => 0⟩ true 0 true true
     (by decide)⟩

/-! ## Association-list lemmas for the dict merge -/

theorem lookup_append_or (l1 l2 : List (String × String)) (k : String) :
    (l1 ++ l2).lookup k =
      if (l1.lookup k).isSome then l1.lookup k else l2.lookup k := by
  induction l1 with
  | nil => simp
  | cons a tl ih =>
    obtain ⟨a1, a2⟩ := a
    simp only [List.cons_append, List.lookup]
    cases hb : (k == a1) with
    | true => simp
    | false => simp [ih]

theorem lookup_map_override (hv lv : List (String × String)) (k : String) :
    (lv.map (fun kv => (kv.1, (hv.lookup kv.1).getD kv.2))).lookup k
      = (lv.lookup k).map (fun v => (hv.lookup k).getD v) := by
  induction lv with
  | nil => simp
  | cons a tl ih =>
    obtain ⟨a1, a2⟩ := a
    simp only [List.map_cons, List.lookup]
    cases hb : (k == a1) with
    | true =>
      have : k = a1 := by simpa using hb
      subst this
      simp
    | false => simp [ih]

theorem lookup_filter_keyFalse (l : List (String × String)) (q : String → Bool)
    (k : String) (hq : q k = false) :
    (l.filter (fun kv => q kv.1)).lookup k = none := by
  induction l with
  | nil => simp
  | cons a tl ih =>
    obtain ⟨a1, a2⟩ := a
    by_cases hqa : q a1
    · have hka : (k == a1) = false := by
        rcases eq_or_ne k a1 with h | h
        · subst h; rw [hqa] at hq; cases hq
        · simpa using h
      simp only [List.filter_cons, hqa, if_true, List.lookup, hka, ih]
    · simp [List.filter_cons, hqa, ih]

theorem lookup_filter_keyTrue (l : List (String × String)) (q : String → Bool)
    (k : String) (hq : q k = true) :
    (l.filter (fun kv => q kv.1)).lookup k = l.lookup k := by
  induction l with
  | nil => simp
  | cons a tl ih =>
    obtain ⟨a1, a2⟩ := a
    by_cases hqa : q a1
    · simp only [List.filter_cons, hqa, if_true, List.lookup]
      cases hb : (k == a1) with
      | true => rfl
      | false => simp [ih]
    · have hka : (k == a1) = false := by
        rcases eq_or_ne k a1 with h | h
        · subst h; rw [hq] at hqa; cases hqa rfl
        · simpa using h
      simp only [List.filter_cons, hqa, if_false, List.lookup, hka]
      exact ih

/-- The dict merge resolves every key to hr's value when hr has the key and
to lr's value otherwise. -/
theorem mergeDict_lookup (lv hv : List (String × String)) (k : String) :
    (mergeDict lv hv).lookup k =
      if (hv.lookup k).isSome then hv.lookup k else lv.lookup k := by
  unfold mergeDict
  rw [lookup_append_or, lookup_map_override]
  cases hlv : lv.lookup k with
  | none =>
    rw [lookup_filter_keyTrue hv (fun s => (lv.lookup s).isNone) k (by simp [hlv])]
    cases hhv : hv.lookup k <;> simp [hhv]
  | some v =>
    cases hhv : hv.lookup k <;> simp [hhv]

/-! ## C3: attribute delegation of the multi-resolution composite -/

/-- C3: attribute resolution through the composite's `__getattr__`:
a name in the fixed `HR_ATTRS` set resolves to the hr handler's value, for
every lr handler; otherwise two list values merge to their deduplicated
union, two tuple values concatenate hr-then-lr, and two dict values merge
with hr winning on every colliding key. -/
theorem mr_getattr_merge_behavior :
    (∀ hr lr : Handler, ∀ a v, a ∈ HR_ATTRS → hr.pyattrs a = some v →
        mr_getattr hr lr a = .val v)
    ∧ (∀ hr lr : Handler, ∀ a xs ys, a ∉ HR_ATTRS →
        hr.pyattrs a = some (.lst xs) → lr.pyattrs a = some (.lst ys) →
        ∃ zs, mr_getattr hr lr a = .val (.lst zs) ∧ zs.Nodup ∧
          ∀ x, x ∈ zs ↔ x ∈ xs ∨ x ∈ ys)
    ∧ (∀ hr lr : Handler, ∀ a xs ys, a ∉ HR_ATTRS →
        hr.pyattrs a = some (.tup xs) → lr.pyattrs a = some (.tup ys) →
        mr_getattr hr lr a = .val (.tup (xs ++ ys)))
    ∧ (∀ hr lr : Handler, ∀ a dh dl, a ∉ HR_ATTRS →
        hr.pyattrs a = some (.dct dh) → lr.pyattrs a = some (.dct dl) →
        ∃ d, mr_getattr hr lr a = .val (.dct d) ∧
          ∀ k, d.lookup k =
            if (dh.lookup k).isSome then dh.lookup k else dl.lookup k) := by
  refine ⟨fun hr lr a v ha hv => ?_,
          fun hr lr a xs ys ha hh hl => ?_,
          fun hr lr a xs ys ha hh hl => ?_,
          fun hr lr a dh dl ha hh hl => ?_⟩
  · simp [mr_getattr, ha, hv]
  · refine ⟨(xs ++ ys).dedup, ?_, List.nodup_dedup _, fun x => ?_⟩
    · simp [mr_getattr, ha, hh, hl]
    · simp [List.mem_dedup]
  · simp [mr_getattr, ha, hh, hl]
  · exact ⟨mergeDict dl dh, by simp [mr_getattr, ha, hh, hl],
      fun k => mergeDict_lookup dl dh k⟩

/-- Witness for C3: all four branches evaluated on the example handlers
(`meta` from hr only; list union of `dsets`; tuple concatenation of
`shape_t`; dict merge of `attr_d` with the colliding key `k1` taking hr's
value and `k2` surviving from lr). -/
theorem mr_getattr_merge_behavior_witness :
    mr_getattr hrC lrC "meta" = .val (.other "hr_meta_table")
    ∧ (∃ zs, mr_getattr hrC lrC "dsets" = .val (.lst zs) ∧ zs.Nodup ∧
        ∀ x, x ∈ zs ↔ x ∈ ["a", "b"] ∨ x ∈ ["b", "c"])
    ∧ mr_getattr hrC lrC "shape_t" = .val (.tup ["x", "y"])
    ∧ (∃ d, mr_getattr hrC lrC "attr_d" = .val (.dct d) ∧
        ∀ k, d.lookup k =
          if (([("k1", "hv1")] : List (String × String)).lookup k).isSome
          then ([("k1", "hv1")] : List (String × String)).lookup k
          else ([("k1", "lv1"), ("k2", "lv2")] : List (String × String)).lookup k) :=
  ⟨mr_getattr_merge_behavior.1 hrC lrC "meta" (.other "hr_meta_table") (by decide) rfl,
   mr_getattr_merge_behavior.2.1 hrC lrC "dsets" ["a", "b"] ["b", "c"] (by decide) rfl rfl,
   mr_getattr_merge_behavior.2.2.1 hrC lrC "shape_t" ["x"] ["y"] (by decide) rfl rfl,
   mr_getattr_merge_behavior.2.2.2 hrC lrC "attr_d" [("k1", "hv1")]
     [("k1", "lv1"), ("k2", "lv2")] (by decide) rfl rfl⟩

/-! ## C5: attribute-resolution error paths -/

/-- C5 (code refutation): an attribute missing from the handlers does not
produce the descriptive `RuntimeError` the claim describes — the `except`
block reads the unbound `hr_attr`/`lr_attr` locals and raises
`UnboundLocalError`; and for an attribute present on both handlers with
unmergeable container types (here a list on hr, a tuple on lr) `__getattr__`
matches no branch, falls off its end and silently returns `None` instead of
raising. -/
theorem mr_getattr_error_paths :
    mr_getattr hrC lrC "absent_attr" = .unboundLocalError
    ∧ mr_getattr hrC lrC "mixed_attr" = .pyNone
    ∧ hrC.pyattrs "mixed_attr" = some (.lst ["a"])
    ∧ lrC.pyattrs "mixed_attr" = some (.tup ["a"]) := by
  refine ⟨?_, ?_, rfl, rfl⟩ <;> decide

/-! ## C8: iteration over a freshly constructed composite -/

/-- C8 (code refutation): `__init__` never assigns `self._i`, so the first
`next()` on a fresh composite resolves `_i` through `__getattr__`, which for
the int-valued handler cursors falls through every merge branch and yields
`None`; the comparison `None >= len(self.datasets)` then raises `TypeError`
instead of yielding the first dataset.  Had the cursor been initialised to
0, the very same `__next__` logic would yield the first dataset of the
merged catalog — the second conjunct shows the intended behaviour the code
never reaches. -/
theorem mr_next_fresh_composite_fails :
    mr_next mC ⟨none⟩ = .typeError "not supported between instances of NoneType and int"
    ∧ mr_next mC ⟨some 0⟩ = .yield "windspeed" ⟨some 1⟩
    ∧ mr_next mC ⟨some 2⟩ = .stopIteration ⟨some 0⟩ := by
  refine ⟨?_, ?_, ?_⟩ <;> decide

/-! ## C1: the grouped weighted-statistics path -/

theorem groupFrame_ne_nil (df : DFrame) (month diurnal : Bool)
    (h : df.index ≠ []) : groupFrame df month diurnal ≠ [] := by
  simp [groupFrame, h]

/-- C1 (code refutation): with month (or diurnal) grouping and a statistic
whose name carries the weighted prefix and whose kwargs hold a weights
table, `_compute_stats` never groups the weights and reduces no group:
`_extract_stats` calls it without its `weights` parameter (the weights
DataFrame stays inside the statistic's kwargs), and on the first group
iteration `_compute_weighted_stats` calls `.get_group` on that plain
DataFrame, raising `AttributeError`.  Passing the weights through the
`weights` parameter instead fails even earlier, on the misspelled
`weights.groupyby(groupby)`. -/
theorem compute_stats_weighted_grouped_raises
    (df wdf : DFrame) (f : DFrame → Option DFrame → List ℝ) (name : String)
    (rest : List (String × StatSpec))
    (hname : strStartsWith (strToLower name) "weight" = true)
    (hne : df.index ≠ []) :
    compute_stats df ((name, ⟨f, some ⟨some wdf⟩⟩) :: rest) false true none =
      .error (.attributeError "DataFrame object has no attribute get_group")
    ∧ ∀ (w : DFrame) (stats : List (String × StatSpec)),
        compute_stats df stats false true (some w) =
          .error (.attributeError "DataFrame object has no attribute groupyby") := by
  constructor
  · obtain ⟨g, gs, hg⟩ : ∃ g gs, groupFrame df true false = g :: gs := by
      cases hgr : groupFrame df true false with
      | nil => exact absurd hgr (groupFrame_ne_nil df true false hne)
      | cons g gs => exact ⟨g, gs, rfl⟩
    simp [compute_stats, stats_loop, hname, compute_weighted_stats, hg]
    rfl
  · intro w stats
    simp [compute_stats]

/-- The one-row data/weights frame and trivial statistic function used by
the C1 witness. -/
def dfW : DFrame := ⟨[⟨1, 0⟩], [0], [[0]]⟩

/-- A statistic function for the C1 witness. -/
def statFnW : DFrame → Option DFrame → List ℝ := fun _ _ => []

/-- Witness for C1 at a concrete one-row frame and the statistic name
`weighted_circular_mean` carrying a weights DataFrame in its kwargs. -/
theorem compute_stats_weighted_grouped_raises_witness :
    strStartsWith (strToLower "weighted_circular_mean") "weight" = true
    ∧ dfW.index ≠ []
    ∧ compute_stats dfW [("weighted_circular_mean", ⟨statFnW, some ⟨some dfW⟩⟩)]
        false true none =
        .error (.attributeError "DataFrame object has no attribute get_group")
    ∧ compute_stats dfW [("weighted_circular_mean", ⟨statFnW, some ⟨some dfW⟩⟩)]
        false true (some dfW) =
        .error (.attributeError "DataFrame object has no attribute groupyby") :=
  ⟨rfl, by simp [dfW],
   (compute_stats_weighted_grouped_raises dfW dfW statFnW "weighted_circular_mean" []
     rfl (by simp [dfW])).1,
   (compute_stats_weighted_grouped_raises dfW dfW statFnW "weighted_circular_mean" []
     rfl (by simp [dfW])).2 dfW
     [("weighted_circular_mean", ⟨statFnW, some ⟨some dfW⟩⟩)]⟩

/-! ## C7: the circular mean formula -/

theorem np_arctan2_bounds (y x : ℝ) :
    -Real.pi < np_arctan2 y x ∧ np_arctan2 y x ≤ Real.pi := by
  have hpi := Real.pi_pos
  have hub := Real.arctan_lt_pi_div_two (y / x)
  have hlb := Real.neg_pi_div_two_lt_arctan (y / x)
  unfold np_arctan2
  rcases lt_trichotomy x 0 with hx | hx | hx
  · rw [if_neg (by linarith), if_pos hx]
    by_cases hy : 0 ≤ y
    · rw [if_pos hy]
      have h1 : Real.arctan (y / x) ≤ 0 := by
        rw [← Real.arctan_zero]
        exact Real.arctan_strictMono.monotone
          (div_nonpos_iff.mpr (Or.inl ⟨hy, hx.le⟩))
      exact ⟨by linarith, by linarith⟩
    · rw [if_neg hy]
      push_neg at hy
      have h1 : 0 < Real.arctan (y / x) := by
        rw [← Real.arctan_zero]
        exact Real.arctan_strictMono (div_pos_iff.mpr (Or.inr ⟨hy, hx⟩))
      exact ⟨by linarith, by linarith⟩
  · subst hx
    rw [if_neg (lt_irrefl 0), if_neg (lt_irrefl 0)]
    by_cases hy : 0 < y
    · rw [if_pos hy]; exact ⟨by linarith, by linarith⟩
    · rw [if_neg hy]
      by_cases hy2 : y < 0
      · rw [if_pos hy2]; exact ⟨by linarith, by linarith⟩
      · rw [if_neg hy2]; exact ⟨by linarith, by linarith⟩
  · rw [if_pos hx]
    exact ⟨by linarith, by linarith⟩

theorem deg_norm_bounds (a : ℝ) (h1 : -Real.pi < a) (h2 : a ≤ Real.pi) :
    0 ≤ (if a * (180 / Real.pi) < 0 then a * (180 / Real.pi) + 360
         else a * (180 / Real.pi))
    ∧ (if a * (180 / Real.pi) < 0 then a * (180 / Real.pi) + 360
       else a * (180 / Real.pi)) < 360 := by
  have hpi := Real.pi_pos
  have hne := Real.pi_ne_zero
  have hub : a * (180 / Real.pi) ≤ 180 := by
    calc a * (180 / Real.pi) ≤ Real.pi * (180 / Real.pi) :=
          mul_le_mul_of_nonneg_right h2 (by positivity)
      _ = 180 := by field_simp
  have hlbd : (-180 : ℝ) < a * (180 / Real.pi) := by
    have hstep : -Real.pi * (180 / Real.pi) < a * (180 / Real.pi) :=
      mul_lt_mul_of_pos_right h1 (by positivity)
    have hval : -Real.pi * (180 / Real.pi) = (-180 : ℝ) := by field_simp; ring
    linarith
  by_cases hneg : a * (180 / Real.pi) < 0
  · rw [if_pos hneg]
    exact ⟨by linarith, by linarith⟩
  · rw [if_neg hneg]
    push_neg at hneg
    exact ⟨by linarith, by linarith⟩

/-- Every entry of the degree-mode circular mean lies in `[0, 360)`. -/
theorem circ_mean_arr_item_range (data : NDArray) (applyW : NDArray → NDArray)
    (axis : Nat) (ix : List Nat) :
    0 ≤ (circ_mean_arr data applyW true axis).item ix
    ∧ (circ_mean_arr data applyW true axis).item ix < 360 := by
  unfold circ_mean_arr np_normalize_deg arrArctan2
  simp only [if_true]
  exact deg_norm_bounds _ (np_arctan2_bounds _ _).1 (np_arctan2_bounds _ _).2

/-- `arctan2` is invariant under scaling both arguments by a positive
constant. -/
theorem np_arctan2_smul (c y x : ℝ) (hc : 0 < c) :
    np_arctan2 (c * y) (c * x) = np_arctan2 y x := by
  have hdiv : c * y / (c * x) = y / x := mul_div_mul_left y x hc.ne'
  have hx1 : 0 < c * x ↔ 0 < x := ⟨fun h => by nlinarith, fun h => mul_pos hc h⟩
  have hx2 : c * x < 0 ↔ x < 0 :=
    ⟨fun h => by nlinarith, fun h => mul_neg_of_pos_of_neg hc h⟩
  have hy1 : 0 ≤ c * y ↔ 0 ≤ y :=
    ⟨fun h => by nlinarith, fun h => mul_nonneg hc.le h⟩
  have hy2 : 0 < c * y ↔ 0 < y := ⟨fun h => by nlinarith, fun h => mul_pos hc h⟩
  have hy3 : c * y < 0 ↔ y < 0 :=
    ⟨fun h => by nlinarith, fun h => mul_neg_of_pos_of_neg hc h⟩
  simp only [np_arctan2, hx1, hx2, hy1, hy2, hy3, hdiv]

/-- Axis-means of an array multiplied elementwise by constant weights `c`
scale the means by `c`. -/
theorem nanmean_axis_arrMul_const (b w : NDArray) (c : ℝ) (axis : Nat)
    (hw : ∀ ix, w.item ix = c) :
    nanmean_axis (arrMul b w) axis =
      ⟨b.shape.eraseIdx axis, fun ix => c * (nanmean_axis b axis).item ix⟩ := by
  unfold nanmean_axis arrMul
  apply NDArray.ext
  · rfl
  · funext ix
    simp only [hw]
    rw [← Finset.sum_mul]
    ring

theorem wcm_item_range_aux (data : NDArray) (w : Option NDArray) (axis : Nat)
    (nw ew : Bool) (r : NDArray)
    (h : weighted_circular_mean data w true axis nw ew = .ok r) (ix : List Nat) :
    0 ≤ r.item ix ∧ r.item ix < 360 := by
  cases w with
  | none =>
    simp only [weighted_circular_mean, WCMRes.ok.injEq] at h
    rw [← h]
    exact circ_mean_arr_item_range data (fun a => a) axis ix
  | some w =>
    by_cases hsh : data.shape ≠ w.shape
    · simp [weighted_circular_mean, hsh] at h
    · simp only [weighted_circular_mean, hsh, if_false, WCMRes.ok.injEq] at h
      rw [← h]
      exact circ_mean_arr_item_range data (fun a => arrMul a w) axis ix

theorem wcm_const_weights_aux (data w : NDArray) (c : ℝ) (axis : Nat)
    (nw ew : Bool) (hsh : w.shape = data.shape) (hw : ∀ ix, w.item ix = c)
    (hc : 0 < c) :
    weighted_circular_mean data (some w) true axis nw ew =
      weighted_circular_mean data none true axis nw ew := by
  have hne : ¬ (data.shape ≠ w.shape) := by simp [hsh]
  simp only [weighted_circular_mean, hne, if_false]
  congr 1
  unfold circ_mean_arr
  simp only [if_true]
  rw [nanmean_axis_arrMul_const _ w c axis hw, nanmean_axis_arrMul_const _ w c axis hw]
  apply NDArray.ext
  · rfl
  · funext ix
    simp only [np_normalize_deg, arrArctan2]
    rw [np_arctan2_smul c _ _ hc]

/-- C7: in degree mode `weighted_circular_mean` converts the data to
radians, takes the (weighted) axis-means of the sine and cosine
components, recombines them with `np.arctan2`, converts back to degrees
and shifts negatives by 360 (the embedded definition); consequently every
returned entry lies in `[0, 360)`, and constant positive weights give
exactly the unweighted circular mean of that sine/cosine/arctan2 formula. -/
theorem weighted_circular_mean_correct :
    (∀ (data : NDArray) (w : Option NDArray) (axis : Nat) (nw ew : Bool)
        (r : NDArray),
        weighted_circular_mean data w true axis nw ew = .ok r →
        ∀ ix, 0 ≤ r.item ix ∧ r.item ix < 360)
    ∧ (∀ (data w : NDArray) (c : ℝ) (axis : Nat) (nw ew : Bool),
        w.shape = data.shape → (∀ ix, w.item ix = c) → 0 < c →
        weighted_circular_mean data (some w) true axis nw ew =
          weighted_circular_mean data none true axis nw ew) :=
  ⟨fun data w axis nw ew r h ix => wcm_item_range_aux data w axis nw ew r h ix,
   fun data w c axis nw ew hsh hw hc =>
     wcm_const_weights_aux data w c axis nw ew hsh hw hc⟩

/-- The direction data `[0, 90, 180, 270]` degrees of the spec's concrete
scenario, as a 1-D array of 4 samples. -/
noncomputable def dirData : NDArray :=
  ⟨[4], fun ix => [(0 : ℝ), 90, 180, 270].getD (ix.headD 0) 0⟩

/-- Equal (unit) weights of the same shape. -/
noncomputable def onesW : NDArray := ⟨[4], fun _ => 1⟩

/-- Witness for C7: with the concrete directions `[0, 90, 180, 270]` and
equal weights 1, the weighted call equals the unweighted circular mean, and
the returned entry lies in `[0, 360)`. -/
theorem weighted_circular_mean_correct_witness :
    onesW.shape = dirData.shape
    ∧ (0 : ℝ) < 1
    ∧ weighted_circular_mean dirData (some onesW) true 0 true true =
        weighted_circular_mean dirData none true 0 true true
    ∧ (0 ≤ (circ_mean_arr dirData (fun a => a) true 0).item []
       ∧ (circ_mean_arr dirData (fun a => a) true 0).item [] < 360) :=
  ⟨rfl, by norm_num,
   weighted_circular_mean_correct.2 dirData onesW 1 0 true true rfl (fun _ => rfl)
     (by norm_num),
   weighted_circular_mean_correct.1 dirData none 0 true true
     (circ_mean_arr dirData (fun a => a) true 0) rfl []⟩

/-! ## C2: lr reads are nn-mapped and interpolated onto the hr time index -/

theorem lt_length_of_getElem? {α : Type _} {l : List α} {k : Nat} {a : α}
    (h : l[k]? = some a) : k < l.length :=
  (List.getElem?_eq_some_iff.mp h).1

theorem getElem?_rangeMap {α : Type _} (f : Nat → α) (n k : Nat) (hk : k < n) :
    ((List.range n).map f)[k]? = some (f k) := by
  simp [List.getElem?_map, List.getElem?_range hk]

theorem interpolateLinear_length (xs : List (Option ℚ)) :
    (interpolateLinear xs).length = xs.length := by
  simp [interpolateLinear]

theorem ffill_length (xs : List (Option ℚ)) : (ffill xs).length = xs.length := by
  simp [ffill]

theorem bfill_length (xs : List (Option ℚ)) : (bfill xs).length = xs.length := by
  simp [bfill]

theorem reindexCol_length (lrIdx : List Nat) (col : List (Option ℚ))
    (hrIdx : List Nat) : (reindexCol lrIdx col hrIdx).length = hrIdx.length := by
  simp [reindexCol]

/-- Interpolation leaves valid (non-NaN) entries unchanged. -/
theorem interpolateLinear_preserve (xs : List (Option ℚ)) (k : Nat) (v : ℚ)
    (h : xs[k]? = some (some v)) : (interpolateLinear xs)[k]? = some (some v) := by
  have hk : k < xs.length := lt_length_of_getElem? h
  unfold interpolateLinear
  rw [getElem?_rangeMap _ _ _ hk, h]

/-- Forward fill leaves valid entries unchanged. -/
theorem ffill_preserve (xs : List (Option ℚ)) (k : Nat) (v : ℚ)
    (h : xs[k]? = some (some v)) : (ffill xs)[k]? = some (some v) := by
  have hk : k < xs.length := lt_length_of_getElem? h
  unfold ffill
  rw [getElem?_rangeMap _ _ _ hk, h]

/-- Backward fill leaves valid entries unchanged. -/
theorem bfill_preserve (xs : List (Option ℚ)) (k : Nat) (v : ℚ)
    (h : xs[k]? = some (some v)) : (bfill xs)[k]? = some (some v) := by
  have hk : k < xs.length := lt_length_of_getElem? h
  unfold bfill
  rw [getElem?_rangeMap _ _ _ hk, h]

theorem prevValid_isSome (xs : List (Option ℚ)) (k j : Nat) (v : ℚ)
    (hj : j < k) (hv : xs[j]? = some (some v)) : (prevValid xs k).isSome := by
  induction k with
  | zero => omega
  | succ k ih =>
    rcases Nat.lt_succ_iff_lt_or_eq.mp hj with hjk | rfl
    · cases hk : xs[k]? with
      | none => simpa [prevValid, hk] using ih hjk
      | some o =>
        cases o with
        | none => simpa [prevValid, hk] using ih hjk
        | some w => simp [prevValid, hk]
    · simp [prevValid, hv]

theorem nextValidFrom_isSome (xs : List (Option ℚ)) (fuel : Nat) :
    ∀ start j v, start ≤ j → j < start + fuel → xs[j]? = some (some v) →
      (nextValidFrom xs fuel start).isSome := by
  induction fuel with
  | zero => intro start j v h1 h2 hv; omega
  | succ fuel ih =>
    intro start j v h1 h2 hv
    cases hs : xs[start]? with
    | none =>
      exfalso
      have hlen : xs.length ≤ start := List.getElem?_eq_none_iff.mp hs
      have hjlen : j < xs.length := lt_length_of_getElem? hv
      omega
    | some o =>
      cases o with
      | some w => simp [nextValidFrom, hs]
      | none =>
        have hne : start ≠ j := by
          intro he; rw [he, hv] at hs; cases hs
        simp only [nextValidFrom, hs]
        exact ih (start + 1) j v (by omega) (by omega) hv

theorem nextValid_isSome (xs : List (Option ℚ)) (k j : Nat) (v : ℚ)
    (h1 : k < j) (hv : xs[j]? = some (some v)) : (nextValid xs k).isSome := by
  have hjlen : j < xs.length := lt_length_of_getElem? hv
  exact nextValidFrom_isSome xs xs.length (k + 1) j v (by omega) (by omega) hv

/-- After `ffill`, a position is valid as soon as some position at or
before it was valid. -/
theorem ffill_getElem?_of_exists (xs : List (Option ℚ)) (k : Nat)
    (hk : k < xs.length) (h : ∃ j v, j ≤ k ∧ xs[j]? = some (some v)) :
    ∃ u, (ffill xs)[k]? = some (some u) := by
  obtain ⟨j, v, hj, hv⟩ := h
  rcases eq_or_lt_of_le hj with rfl | hlt
  · exact ⟨v, ffill_preserve xs j v hv⟩
  · unfold ffill
    rw [getElem?_rangeMap _ _ _ hk]
    obtain ⟨pr, hpr⟩ :=
      Option.isSome_iff_exists.mp (prevValid_isSome xs k j v hlt hv)
    cases hx : xs[k]? with
    | none => exact ⟨pr.2, by simp [hx, hpr]⟩
    | some o =>
      cases o with
      | none => exact ⟨pr.2, by simp [hx, hpr]⟩
      | some w => exact ⟨w, by simp [hx]⟩

/-- After `bfill`, a position is valid as soon as some position at or
after it was valid. -/
theorem bfill_getElem?_of_exists (xs : List (Option ℚ)) (k : Nat)
    (hk : k < xs.length) (h : ∃ j v, k ≤ j ∧ xs[j]? = some (some v)) :
    ∃ u, (bfill xs)[k]? = some (some u) := by
  obtain ⟨j, v, hj, hv⟩ := h
  rcases eq_or_lt_of_le hj with rfl | hlt
  · exact ⟨v, bfill_preserve xs k v hv⟩
  · unfold bfill
    rw [getElem?_rangeMap _ _ _ hk]
    obtain ⟨pr, hpr⟩ :=
      Option.isSome_iff_exists.mp (nextValid_isSome xs k j v hlt hv)
    cases hx : xs[k]? with
    | none => exact ⟨pr.2, by simp [hx, hpr]⟩
    | some o =>
      cases o with
      | none => exact ⟨pr.2, by simp [hx, hpr]⟩
      | some w => exact ⟨w, by simp [hx]⟩

/-- The interpolate/ffill/bfill pipeline reproduces valid inputs exactly. -/
theorem pipeline_preserve (xs : List (Option ℚ)) (k : Nat) (v : ℚ)
    (h : xs[k]? = some (some v)) :
    (bfill (ffill (interpolateLinear xs)))[k]? = some (some v) :=
  bfill_preserve _ k v (ffill_preserve _ k v (interpolateLinear_preserve xs k v h))

/-- One valid input anywhere makes every position of the pipeline output
valid. -/
theorem pipeline_total (xs : List (Option ℚ)) (p : Nat) (v : ℚ)
    (hp : xs[p]? = some (some v)) (k : Nat) (hk : k < xs.length) :
    ∃ u, (bfill (ffill (interpolateLinear xs)))[k]? = some (some u) := by
  have hp1 : (interpolateLinear xs)[p]? = some (some v) :=
    interpolateLinear_preserve xs p v hp
  have hlen1 : (interpolateLinear xs).length = xs.length := interpolateLinear_length xs
  by_cases hpk : p ≤ k
  · obtain ⟨u, hu⟩ := ffill_getElem?_of_exists (interpolateLinear xs) k (by omega)
      ⟨p, v, hpk, hp1⟩
    exact ⟨u, bfill_preserve _ k u hu⟩
  · push_neg at hpk
    have hp2 : (ffill (interpolateLinear xs))[p]? = some (some v) :=
      ffill_preserve _ p v hp1
    have hlen2 : (ffill (interpolateLinear xs)).length = xs.length := by
      rw [ffill_length, hlen1]
    exact bfill_getElem?_of_exists _ k (by omega) ⟨p, v, by omega, hp2⟩

theorem findPos_lt (t : Nat) (l : List Nat) (p : Nat)
    (h : findPos t l = some p) : p < l.length := by
  induction l generalizing p with
  | nil => cases h
  | cons x xs ih =>
    unfold findPos at h
    by_cases hx : x = t
    · rw [if_pos hx] at h
      injection h with h
      simp [← h]
    · rw [if_neg hx] at h
      obtain ⟨q, hq, hqp⟩ := Option.map_eq_some'.mp h
      have := ih q hq
      simp [← hqp]
      omega

theorem findPos_getElem? (t : Nat) (l : List Nat) (p : Nat)
    (h : findPos t l = some p) : l[p]? = some t := by
  induction l generalizing p with
  | nil => cases h
  | cons x xs ih =>
    unfold findPos at h
    by_cases hx : x = t
    · rw [if_pos hx] at h
      injection h with h
      rw [← h, hx]
      simp
    · rw [if_neg hx] at h
      obtain ⟨q, hq, hqp⟩ := Option.map_eq_some'.mp h
      rw [← hqp]
      simpa using ih q hq

theorem findPos_isSome_of_mem (t : Nat) (l : List Nat) (h : t ∈ l) :
    (findPos t l).isSome := by
  induction l with
  | nil => cases h
  | cons x xs ih =>
    unfold findPos
    by_cases hx : x = t
    · simp [hx]
    · rw [if_neg hx]
      rcases List.mem_cons.mp h with he | hm
      · exact absurd he.symm hx
      · simpa using ih hm

theorem reindexCol_getElem? (lrIdx : List Nat) (col : List (Option ℚ))
    (hrIdx : List Nat) (k t : Nat) (hk : hrIdx[k]? = some t) :
    (reindexCol lrIdx col hrIdx)[k]? =
      some (match findPos t lrIdx with
            | some p => col.getD p none
            | none => none) := by
  unfold reindexCol
  rw [List.getElem?_map, hk]
  rfl

/-- Exactness of one interpolated column: an hr timestamp present in the lr
index receives exactly the lr sample stored at that timestamp. -/
theorem time_interp_col_exact (lrIdx hrIdx : List Nat) (col : List (Option ℚ))
    (k t p : Nat) (v : ℚ) (hk : hrIdx[k]? = some t)
    (hp : findPos t lrIdx = some p) (hcol : col.getD p none = some v) :
    (time_interp_col lrIdx hrIdx col)[k]? = some (some v) := by
  unfold time_interp_col
  refine pipeline_preserve _ k v ?_
  rw [reindexCol_getElem? lrIdx col hrIdx k t hk, hp]
  exact congrArg some hcol

/-- Totality of one interpolated column: one hr timestamp inside the lr
index with a valid sample makes every position of the column valid. -/
theorem time_interp_col_total (lrIdx hrIdx : List Nat) (col : List (Option ℚ))
    (t p : Nat) (v : ℚ) (ht : t ∈ hrIdx) (hp : findPos t lrIdx = some p)
    (hcol : col.getD p none = some v) (k : Nat) (hk : k < hrIdx.length) :
    ∃ u, (time_interp_col lrIdx hrIdx col)[k]? = some (some u) := by
  obtain ⟨k0, hk0⟩ := List.mem_iff_getElem?.mp ht
  have h0 : (reindexCol lrIdx col hrIdx)[k0]? = some (some v) := by
    rw [reindexCol_getElem? lrIdx col hrIdx k0 t hk0, hp]
    exact congrArg some hcol
  have hlen : (reindexCol lrIdx col hrIdx).length = hrIdx.length :=
    reindexCol_length lrIdx col hrIdx
  unfold time_interp_col
  exact pipeline_total _ k0 v h0 k (by omega)

/-- An in-range entry of `time_interp` is the corresponding entry of the
per-column pipeline. -/
theorem time_interp_entry (lrIdx hrIdx : List Nat)
    (arr : List (List (Option ℚ))) (k j : Nat) (hk : k < hrIdx.length)
    (hj : j < (arr.headD []).length) :
    ((time_interp lrIdx hrIdx arr).getD k []).getD j none =
      (time_interp_col lrIdx hrIdx (getCol arr j)).getD k none := by
  have hj2 : j < (arr.head?.getD []).length := by
    simpa [List.headD_eq_head?_getD] using hj
  unfold time_interp
  simp [List.getD_eq_getElem?_getD, getElem?_rangeMap _ _ _ hk,
    List.getElem?_range hj2]

/-- The lr site indices an hr-space site selector maps to through
`nn_map`. -/
def mappedSites (m : MRes) (sSel : Sel) : List Nat :=
  (sSel.apply m.nn_map.length).map (fun i => m.nn_map.getD i 0)

/-- The array a composite read of an lr-only dataset produces: the lr read
at the nn-mapped sites, interpolated onto the hr time index. -/
def lrInterpOut (m : MRes) (ds : String) (sSel : Sel) : List (List (Option ℚ)) :=
  time_interp m.lr.time_index m.hr.time_index
    (m.lr.read ds fullSlice (Sel.list (mappedSites m sSel)))

theorem read_full_list (h : Handler) (ds : String) (sites : List Nat) :
    h.read ds fullSlice (Sel.list sites) =
      (List.range h.time_index.length).map
        (fun t => sites.map (fun s => h.data ds t s)) := by
  unfold Handler.read
  rw [fullSlice_apply]
  rfl

theorem getCol_read (h : Handler) (ds : String) (sites : List Nat) (j p : Nat)
    (hp : p < h.time_index.length) (hj : j < sites.length) :
    (getCol (h.read ds fullSlice (Sel.list sites)) j).getD p none =
      h.data ds p (sites.getD j 0) := by
  unfold getCol
  rw [read_full_list, List.getD_eq_getElem?_getD, List.getElem?_map,
    getElem?_rangeMap _ _ _ hp]
  simp only [Option.map_some', Option.getD_some]
  rw [List.getD_eq_getElem?_getD, List.getElem?_map,
    List.getElem?_eq_getElem hj]
  simp [List.getD_eq_getElem?_getD, List.getElem?_eq_getElem hj]

theorem read_head_length (h : Handler) (ds : String) (sites : List Nat)
    (hne : h.time_index ≠ []) :
    ((h.read ds fullSlice (Sel.list sites)).headD []).length = sites.length := by
  rw [read_full_list]
  obtain ⟨n, hn⟩ : ∃ n, h.time_index.length = n + 1 := by
    cases hl : h.time_index with
    | nil => exact absurd hl hne
    | cons a l => exact ⟨l.length, by simp [hl]⟩
  rw [hn, List.range_succ_eq_map]
  simp

/-- C2: a read through the composite of a dataset present only in the lr
catalog maps the site selector through `nn_map`, reads the lr handler, and
reindexes the result from the lr onto the hr time index with linear
interpolation, forward fill, then backward fill; for an lr time index
without duplicate timestamps and NaN-free lr data overlapping the hr index,
hr timestamps present in the lr index reproduce the lr samples exactly and
no hr timestamp is left missing. -/
theorem mres_lr_read_interp
    (m : MRes) (ds : String) (sSel : Sel)
    (h1 : strStartsWith (ds_name ds) "time_index" = false)
    (h2 : strStartsWith (ds_name ds) "meta" = false)
    (h3 : strStartsWith (ds_name ds) "coordinates" = false)
    (h4 : containsSAM (ds_name ds) = false)
    (h5 : ds_name ds ∉ m.hr.resource_datasets)
    (h6 : ds_name ds ∈ m.lr.resource_datasets)
    (hnodup : m.lr.time_index.Nodup)
    (hdata : ∀ t s, (m.lr.data ds t s).isSome)
    (hover : ∃ t, t ∈ m.hr.time_index ∧ t ∈ m.lr.time_index) :
    m.getitem ds [fullSlice, sSel] = .interp (lrInterpOut m ds sSel)
    ∧ (∀ k t p j,
        m.hr.time_index[k]? = some t →
        findPos t m.lr.time_index = some p →
        j < (mappedSites m sSel).length →
        ((lrInterpOut m ds sSel).getD k []).getD j none =
          m.lr.data ds p ((mappedSites m sSel).getD j 0))
    ∧ (∀ k j, k < m.hr.time_index.length →
        j < (mappedSites m sSel).length →
        (((lrInterpOut m ds sSel).getD k []).getD j none).isSome) := by
  have hlrne : m.lr.time_index ≠ [] := by
    obtain ⟨t, _, htl⟩ := hover
    exact List.ne_nil_of_mem htl
  have hhead : ((m.lr.read ds fullSlice (Sel.list (mappedSites m sSel))).headD []).length
      = (mappedSites m sSel).length :=
    read_head_length m.lr ds (mappedSites m sSel) hlrne
  refine ⟨?_, fun k t p j hk hp hj => ?_, fun k j hk hj => ?_⟩
  · simp [MRes.getitem, h1, h2, h3, h4, h5, h6, MRes.map_ds_slice,
      lrInterpOut, mappedSites]
  · have hklen : k < m.hr.time_index.length := lt_length_of_getElem? hk
    have hplen : p < m.lr.time_index.length := findPos_lt t m.lr.time_index p hp
    obtain ⟨v, hv⟩ := Option.isSome_iff_exists.mp
      (hdata p ((mappedSites m sSel).getD j 0))
    have hcol : (getCol (m.lr.read ds fullSlice (Sel.list (mappedSites m sSel))) j).getD
        p none = some v := by
      rw [getCol_read m.lr ds (mappedSites m sSel) j p hplen hj, hv]
    have hexact := time_interp_col_exact m.lr.time_index m.hr.time_index
      (getCol (m.lr.read ds fullSlice (Sel.list (mappedSites m sSel))) j)
      k t p v hk hp hcol
    rw [lrInterpOut, time_interp_entry _ _ _ k j hklen (by rw [hhead]; exact hj),
      List.getD_eq_getElem?_getD, hexact, hv]
    rfl
  · obtain ⟨t, hthr, htlr⟩ := hover
    obtain ⟨p, hp⟩ := Option.isSome_iff_exists.mp
      (findPos_isSome_of_mem t m.lr.time_index htlr)
    have hplen : p < m.lr.time_index.length := findPos_lt t m.lr.time_index p hp
    obtain ⟨v, hv⟩ := Option.isSome_iff_exists.mp
      (hdata p ((mappedSites m sSel).getD j 0))
    have hcol : (getCol (m.lr.read ds fullSlice (Sel.list (mappedSites m sSel))) j).getD
        p none = some v := by
      rw [getCol_read m.lr ds (mappedSites m sSel) j p hplen hj, hv]
    obtain ⟨u, hu⟩ := time_interp_col_total m.lr.time_index m.hr.time_index
      (getCol (m.lr.read ds fullSlice (Sel.list (mappedSites m sSel))) j)
      t p v hthr hp hcol k hk
    rw [lrInterpOut, time_interp_entry _ _ _ k j hk (by rw [hhead]; exact hj),
      List.getD_eq_getElem?_getD, hu]
    rfl

/-- Witness for C2 on the example composite: the lr-only dataset `lrtemp`
read with the site list `[0, 1]`; the hr timestamp 0 (shared with the lr
index) reproduces the lr sample, and the purely interpolated hr timestamp 1
is not missing. -/
theorem mres_lr_read_interp_witness :
    mC.getitem "lrtemp" [fullSlice, Sel.list [0, 1]] =
      .interp (lrInterpOut mC "lrtemp" (Sel.list [0, 1]))
    ∧ ((lrInterpOut mC "lrtemp" (Sel.list [0, 1])).getD 0 []).getD 0 none =
        mC.lr.data "lrtemp" 0 ((mappedSites mC (Sel.list [0, 1])).getD 0 0)
    ∧ (((lrInterpOut mC "lrtemp" (Sel.list [0, 1])).getD 1 []).getD 0 none).isSome := by
  have h := mres_lr_read_interp mC "lrtemp" (Sel.list [0, 1]) rfl rfl rfl rfl
    (by decide) (by decide) (by decide) (fun t s => rfl)
    ⟨0, by decide, by decide⟩
  exact ⟨h.1, h.2.1 0 0 0 0 (by decide) (by decide) (by decide),
    h.2.2 1 0 (by decide) (by decide)⟩

end Rex
